import Mathlib

/-!
# HTTP client tool server (`src/server.mjs`)

A shallow embedding of the `HttpClientServer` class. The argument objects are
JavaScript values, the instance field `defaultHeaders` is threaded explicitly,
and every handler returns, next to its outcome, the calls it made. What the
class takes from the platform without fixing it itself (the URL parser, the
network, `JSON.parse`, the printing of numbers, the code units of a string, the
case mapping) is a field of a `Runtime` record, so every theorem holds for
whatever those services answer; `JSON.stringify`, the serialisation of a URL and
its query, object spread and destructuring are written out.
-/

set_option autoImplicit false

namespace HttpClientServer

/-! ## JavaScript values -/

/-- The JavaScript values an argument object can hold. `num n` is the number
whose value is the integer `n`; strings are sequences of Unicode scalar values. -/
inductive JsVal where
  | undefined
  | null
  | bool (b : Bool)
  | num (n : Int)
  | str (s : String)
  | arr (xs : List JsVal)
  | obj (props : List (String × JsVal))

/-- The own enumerable properties of an object, in iteration order. -/
abbrev Obj := List (String × JsVal)

/-- The conversion `ToBoolean`: what `!x` and `x && ...` test. -/
def truthy : JsVal → Bool
  | .undefined => false
  | .null => false
  | .bool b => b
  | .num n => n != 0
  | .str s => s != ""
  | .arr _ => true
  | .obj _ => true

/-- The operator `typeof`. -/
def typeof : JsVal → String
  | .undefined => "undefined"
  | .null => "object"
  | .bool _ => "boolean"
  | .num _ => "number"
  | .str _ => "string"
  | .arr _ => "object"
  | .obj _ => "object"

/-! ## Failures -/

/-- The `ErrorCode` values the server raises. -/
inductive ErrorCode where
  | InvalidParams
  | MethodNotFound
  | InternalError
  deriving DecidableEq

/-- An exception value that is not an `McpError`: its `name` and `message`. -/
structure Failure where
  name : String
  message : String
  deriving DecidableEq

/-- What a handler throws: `new McpError(code, message)` or another exception. -/
inductive Thrown where
  | mcp (code : ErrorCode) (message : String)
  | other (e : Failure)
  deriving DecidableEq

/-! ## Platform services -/

/-- The state of a `URL` object: the serialisation of the components before the
query, the query (`none` for a null query), the list its `searchParams` holds,
and the fragment (`none` for a null fragment). -/
structure URL where
  beforeQuery : String
  query : Option String
  searchParams : List (String × String)
  fragment : Option String
  deriving DecidableEq

/-- What `fetch` resolves with: the fields of the response the handler reads.
`text` is the outcome of `response.text()`. -/
structure Response where
  status : Int
  headers : List (String × String)
  url : String
  text : Except Failure String

/-- The second argument of `fetch`. `signal` is the abort signal, identified with
the delay of the timer that fires it; `body` is `none` when the key is not set. -/
structure FetchOptions where
  method : String
  headers : Obj
  signal : JsVal
  redirect : String
  body : Option JsVal

/-- Upper case of an ASCII string. -/
def upperAscii (s : String) : String :=
  ⟨s.data.map Char.toUpper⟩

/-- The platform services the class relies on.
* `numberToString n` is `Number::toString` of the number `n`: the decimal
  numeral for a safe integer (at most `2^53 - 1` in absolute value).
* `codeUnits s` lists the one-code-unit strings `s[0]`, `s[1]`, ...: one per
  character when every character lies in the Basic Multilingual Plane.
* `toUpperCase` is `String.prototype.toUpperCase`: on ASCII strings it maps
  `a`-`z` to `A`-`Z`.
* `newURL s` is `new URL(s)`, a `TypeError` for what does not parse.
* `fetch` is the outcome of one awaited `fetch` call: a rejection is an `error`,
  and the abort fired by the timer is the rejection named `AbortError`.
* `jsonParse` is `JSON.parse`. -/
structure Runtime where
  numberToString : Int → String
  numberToString_safe : ∀ n : Int, n.natAbs ≤ 9007199254740991 → numberToString n = toString n
  codeUnits : String → List JsVal
  codeUnits_bmp : ∀ s : String, (∀ c ∈ s.data, c.toNat < 65536) →
    codeUnits s = s.data.map fun c => JsVal.str (String.singleton c)
  toUpperCase : String → String
  toUpperCase_ascii : ∀ s : String, (∀ c ∈ s.data, c.toNat < 128) → toUpperCase s = upperAscii s
  newURL : String → Except Failure URL
  fetch : JsVal → FetchOptions → Except Failure Response
  jsonParse : String → Except Failure JsVal

/-! ## Conversion to string -/

mutual
/-- The conversion `ToString`, as a template literal and `URLSearchParams`
apply it. -/
def jsToString (rt : Runtime) : JsVal → String
  | .undefined => "undefined"
  | .null => "null"
  | .bool b => if b then "true" else "false"
  | .num n => rt.numberToString n
  | .str s => s
  | .arr xs => joinElems rt xs
  | .obj _ => "[object Object]"
/-- The method `Array.prototype.join` with the separator `","`. -/
def joinElems (rt : Runtime) : List JsVal → String
  | [] => ""
  | [x] => elemToString rt x
  | x :: y :: rest => elemToString rt x ++ "," ++ joinElems rt (y :: rest)
/-- One element of a joined array: `undefined` and `null` give the empty string. -/
def elemToString (rt : Runtime) : JsVal → String
  | .undefined => ""
  | .null => ""
  | .bool b => if b then "true" else "false"
  | .num n => rt.numberToString n
  | .str s => s
  | .arr xs => joinElems rt xs
  | .obj _ => "[object Object]"
end

/-- The strings of a list joined by a separator. -/
def joinWith (sep : String) : List String → String
  | [] => ""
  | [x] => x
  | x :: y :: rest => x ++ sep ++ joinWith sep (y :: rest)

/-! ## Objects -/

/-- The value of a decimal digit string, `none` when a character is not a digit. -/
def digitsValue : List Char → Nat → Option Nat
  | [], acc => some acc
  | c :: cs, acc =>
    if c.isDigit then digitsValue cs (acc * 10 + (c.toNat - 48)) else none

/-- The array index a property key denotes: a canonical decimal numeral below
`2^32 - 1`. Such keys are enumerated first, in ascending order. -/
def arrayIndex (k : String) : Option Nat :=
  match k.data with
  | [] => none
  | c :: cs =>
    if c = '0' ∧ cs ≠ [] then none
    else match digitsValue (c :: cs) 0 with
      | some n => if n < 4294967295 then some n else none
      | none => none

/-- Whether a new key `k` is enumerated before the existing key `k2`. -/
def enumeratedBefore (k k2 : String) : Bool :=
  match arrayIndex k, arrayIndex k2 with
  | some i, some j => i < j
  | some _, none => true
  | none, _ => false

/-- The property read `o[k]` on own properties: `none` stands for a missing key. -/
def Obj.get (o : Obj) (k : String) : Option JsVal :=
  match o with
  | [] => none
  | (k2, v) :: rest => if k2 = k then some v else Obj.get rest k

/-- Whether `k` is an own key. -/
def Obj.hasKey (o : Obj) (k : String) : Bool :=
  (Obj.get o k).isSome

/-- Overwrites the value of an existing key, keeping its place. -/
def Obj.replace (o : Obj) (k : String) (v : JsVal) : Obj :=
  match o with
  | [] => []
  | (k2, v2) :: rest =>
    if k2 = k then (k, v) :: rest else (k2, v2) :: Obj.replace rest k v

/-- Adds a key that is not yet present, at its place in the iteration order. -/
def Obj.insertNew (o : Obj) (k : String) (v : JsVal) : Obj :=
  match o with
  | [] => [(k, v)]
  | (k2, v2) :: rest =>
    if enumeratedBefore k k2 then (k, v) :: (k2, v2) :: rest
    else (k2, v2) :: Obj.insertNew rest k v

/-- Defines the data property `k` with value `v`: an existing key is overwritten
in place, a new key is added. -/
def Obj.set (o : Obj) (k : String) (v : JsVal) : Obj :=
  if Obj.hasKey o k then Obj.replace o k v else Obj.insertNew o k v

/-- The keys `"0"`, `"1"`, ... paired with the elements of a list. -/
def indexed : List JsVal → Nat → Obj
  | [], _ => []
  | x :: xs, i => (toString i, x) :: indexed xs (i + 1)

/-- The own enumerable string-keyed properties of a value, in iteration order:
what `Object.keys`, `Object.entries` and the spread `...v` see. A string has one
property per code unit. -/
def ownProps (rt : Runtime) : JsVal → Obj
  | .obj props => props
  | .arr xs => indexed xs 0
  | .str s => indexed (rt.codeUnits s) 0
  | _ => []

/-- The spread `{ ...target, ...source }` onto an object under construction. -/
def spread (rt : Runtime) (target : Obj) (source : JsVal) : Obj :=
  (ownProps rt source).foldl (fun acc kv => Obj.set acc kv.1 kv.2) target

/-- The property read `v.k` for the names the handlers destructure; a missing
property reads as `undefined`. -/
def getProp (rt : Runtime) (v : JsVal) (k : String) : JsVal :=
  match Obj.get (ownProps rt v) k with
  | some x => x
  | none => .undefined

/-- A destructuring default `k = d`: `d` replaces a value that is `undefined`. -/
def orDefault (v d : JsVal) : JsVal :=
  match v with
  | .undefined => d
  | x => x

/-! ## `JSON.stringify(value, null, 2)` -/

/-- A hexadecimal digit in lower case. -/
def lowerHexDigit (n : Nat) : Char :=
  if n < 10 then Char.ofNat (48 + n) else Char.ofNat (87 + n)

/-- One character of a quoted JSON string: the two-character escapes, `\u00XX`
for the other control characters, the character itself otherwise. -/
def quoteJSONChar (c : Char) : List Char :=
  if c = '\x08' then ['\\', 'b']
  else if c = '\t' then ['\\', 't']
  else if c = '\n' then ['\\', 'n']
  else if c = '\x0c' then ['\\', 'f']
  else if c = '\r' then ['\\', 'r']
  else if c = '"' then ['\\', '"']
  else if c = '\\' then ['\\', '\\']
  else if c.toNat < 32 then
    ['\\', 'u', '0', '0', lowerHexDigit (c.toNat / 16), lowerHexDigit (c.toNat % 16)]
  else [c]

/-- The operation `QuoteJSONString`. -/
def quoteJSONString (s : String) : String :=
  ⟨'"' :: ((s.data.map quoteJSONChar).flatten ++ ['"'])⟩

mutual
/-- The operation `SerializeJSONProperty` with a gap of two spaces: `none` for a
value that has no JSON text (`undefined`). `indent` is the current indentation. -/
def serializeJSONProperty (rt : Runtime) (indent : String) : JsVal → Option String
  | .undefined => none
  | .null => some "null"
  | .bool b => some (if b then "true" else "false")
  | .num n => some (rt.numberToString n)
  | .str s => some (quoteJSONString s)
  | .arr xs =>
    match serializeJSONElements rt (indent ++ "  ") xs with
    | [] => some "[]"
    | parts =>
      some ("[\n" ++ indent ++ "  " ++ joinWith (",\n" ++ indent ++ "  ") parts
        ++ "\n" ++ indent ++ "]")
  | .obj props =>
    match serializeJSONMembers rt (indent ++ "  ") props with
    | [] => some "\x7b\x7d"
    | parts =>
      some ("\x7b\n" ++ indent ++ "  " ++ joinWith (",\n" ++ indent ++ "  ") parts
        ++ "\n" ++ indent ++ "\x7d")
/-- The texts of the elements of an array: `null` for an element without text. -/
def serializeJSONElements (rt : Runtime) (indent : String) : List JsVal → List String
  | [] => []
  | x :: xs =>
    (match serializeJSONProperty rt indent x with
      | some s => s
      | none => "null") :: serializeJSONElements rt indent xs
/-- The members `"key": text` of an object: a property without text is left out. -/
def serializeJSONMembers (rt : Runtime) (indent : String) :
    List (String × JsVal) → List String
  | [] => []
  | (k, v) :: rest =>
    match serializeJSONProperty rt indent v with
    | some s => (quoteJSONString k ++ ": " ++ s) :: serializeJSONMembers rt indent rest
    | none => serializeJSONMembers rt indent rest
end

/-- The text `JSON.stringify(payload, null, 2)` of an object literal `payload`. -/
def jsonStringify (rt : Runtime) (payload : Obj) : String :=
  match serializeJSONMembers rt "  " payload with
  | [] => "\x7b\x7d"
  | parts => "\x7b\n  " ++ joinWith ",\n  " parts ++ "\n\x7d"

/-! ## URLs -/

/-- The UTF-8 bytes of a character. -/
def utf8Encode (c : Char) : List Nat :=
  if c.toNat < 128 then [c.toNat]
  else if c.toNat < 2048 then [192 + c.toNat / 64, 128 + c.toNat % 64]
  else if c.toNat < 65536 then
    [224 + c.toNat / 4096, 128 + c.toNat / 64 % 64, 128 + c.toNat % 64]
  else
    [240 + c.toNat / 262144, 128 + c.toNat / 4096 % 64, 128 + c.toNat / 64 % 64,
      128 + c.toNat % 64]

/-- A hexadecimal digit in upper case. -/
def upperHexDigit (n : Nat) : Char :=
  if n < 10 then Char.ofNat (48 + n) else Char.ofNat (55 + n)

/-- One byte in `application/x-www-form-urlencoded`: a space is `+`, an ASCII
letter or digit and `*`, `-`, `.`, `_` stay, every other byte is `%XX`. -/
def formEncodeByte (b : Nat) : List Char :=
  if b = 32 then ['+']
  else if (48 ≤ b ∧ b ≤ 57) ∨ (65 ≤ b ∧ b ≤ 90) ∨ (97 ≤ b ∧ b ≤ 122)
      ∨ b = 42 ∨ b = 45 ∨ b = 46 ∨ b = 95 then [Char.ofNat b]
  else ['%', upperHexDigit (b / 16), upperHexDigit (b % 16)]

/-- A name or value in `application/x-www-form-urlencoded`. -/
def formEncode (s : String) : String :=
  ⟨((s.data.map utf8Encode).flatten.map formEncodeByte).flatten⟩

/-- One pair of a query: `name=value`. -/
def formEncodePair (kv : String × String) : String :=
  formEncode kv.1 ++ "=" ++ formEncode kv.2

/-- The `application/x-www-form-urlencoded` serialisation of a list of pairs:
the pairs in order, joined by `&`. -/
def formUrlEncode (pairs : List (String × String)) : String :=
  joinWith "&" (pairs.map formEncodePair)

/-- The method `url.searchParams.append(k, v)`: the pair goes to the end of the
list, and the query of the URL becomes the serialisation of the list (null if
that is empty). -/
def URL.append (u : URL) (k v : String) : URL :=
  { u with
    searchParams := u.searchParams ++ [(k, v)]
    query :=
      if formUrlEncode (u.searchParams ++ [(k, v)]) = "" then none
      else some (formUrlEncode (u.searchParams ++ [(k, v)])) }

/-- The method `url.toString()`: the components before the query, then `?` and
the query unless it is null, then `#` and the fragment unless it is null. -/
def URL.toString (u : URL) : String :=
  u.beforeQuery
    ++ (match u.query with
      | some q => "?" ++ q
      | none => "")
    ++ (match u.fragment with
      | some f => "#" ++ f
      | none => "")

/-! ## The server -/

/-- One element of a tool result's `content`. -/
structure ContentItem where
  type : String
  text : String
  deriving DecidableEq

/-- What a handler returns: `{ content: [...] }`. -/
structure ToolResult where
  content : List ContentItem
  deriving DecidableEq

/-- The calls a handler makes on its way, in order. -/
inductive Event where
  | buildUrl (baseUrl queryParams : JsVal)
  | setTimeout (delay : JsVal)
  | fetch (url : JsVal) (options : FetchOptions)
  | clearTimeout

/-- One run of a handler: what it returns or throws, `this.defaultHeaders`
afterwards, and the calls it made. -/
structure Run where
  result : Except Thrown ToolResult
  defaultHeaders : Obj
  trace : List Event

/-- The HTTP calls among the events of a trace: the arguments of each `fetch`. -/
def fetchCalls : List Event → List (JsVal × FetchOptions)
  | [] => []
  | .fetch url options :: rest => (url, options) :: fetchCalls rest
  | _ :: rest => fetchCalls rest

/-- The constructor's value of `this.defaultHeaders`. -/
def initialDefaultHeaders : Obj :=
  [("User-Agent", .str "MCP-HTTP-Client/1.0")]

/-- The `TypeError` of destructuring `undefined` or `null` (V8 wording). -/
def destructureError (rt : Runtime) (first : String) (args : JsVal) : Failure :=
  { name := "TypeError"
    message := "Cannot destructure property '" ++ first ++ "' of 'args' as it is "
      ++ jsToString rt args ++ "." }

/-- The method `buildUrl(baseUrl, queryParams)`. -/
def buildUrl (rt : Runtime) (baseUrl queryParams : JsVal) : Except Failure JsVal :=
  if !truthy queryParams || (ownProps rt queryParams).length == 0 then
    .ok baseUrl
  else
    match rt.newURL (jsToString rt baseUrl) with
    | .error e => .error e
    | .ok url =>
      .ok (.str (URL.toString
        ((ownProps rt queryParams).foldl (fun u kv => u.append kv.1 (jsToString rt kv.2)) url)))

/-- The value `Object.fromEntries(response.headers.entries())`. -/
def fromEntries (entries : List (String × String)) : Obj :=
  entries.foldl (fun acc kv => Obj.set acc kv.1 (.str kv.2)) []

/-- The options object of lines 203-212: `body` is set only for a truthy body and
an upper-cased method among `POST`, `PUT`, `PATCH`. -/
def fetchOptions (upper : String) (finalHeaders : Obj) (body timeout follow_redirects : JsVal) :
    FetchOptions :=
  { method := upper
    headers := finalHeaders
    signal := timeout
    redirect := if truthy follow_redirects then "follow" else "manual"
    body := if truthy body && ["POST", "PUT", "PATCH"].contains upper then some body else none }

/-- The success branch after `fetch` resolved (lines 217-246). -/
def readResponse (rt : Runtime) (response : Response) : Except Failure ToolResult :=
  match response.text with
  | .error e => .error e
  | .ok text =>
    let responseBody :=
      match rt.jsonParse text with
      | .ok v => v
      | .error _ => JsVal.str text
    .ok { content := [{ type := "text", text := jsonStringify rt [
      ("success", .bool true),
      ("status", .num response.status),
      ("headers", .obj (fromEntries response.headers)),
      ("body", responseBody),
      ("url", .str response.url)] }] }

/-- The bindings of the destructuring at lines 182-190. -/
structure RequestArgs where
  url : JsVal
  method : JsVal
  headers : JsVal
  body : JsVal
  query_params : JsVal
  timeout : JsVal
  follow_redirects : JsVal

/-- The destructuring `const { url, method = "GET", headers = {}, body, query_params,
timeout = 30000, follow_redirects = true } = args` of an argument value that is
neither `undefined` nor `null`. -/
def destructureRequest (rt : Runtime) (args : JsVal) : RequestArgs :=
  { url := getProp rt args "url"
    method := orDefault (getProp rt args "method") (.str "GET")
    headers := orDefault (getProp rt args "headers") (.obj [])
    body := getProp rt args "body"
    query_params := getProp rt args "query_params"
    timeout := orDefault (getProp rt args "timeout") (.num 30000)
    follow_redirects := orDefault (getProp rt args "follow_redirects") (.bool true) }

/-- The `try` block of `handleHttpRequest` (lines 197-246): what it returns or
throws, and the calls it made. -/
def requestAttempt (rt : Runtime) (defaultHeaders : Obj) (a : RequestArgs) :
    Except Failure ToolResult × List Event :=
  match buildUrl rt a.url a.query_params with
  | .error e => (.error e, [.buildUrl a.url a.query_params])
  | .ok finalUrl =>
    let finalHeaders := spread rt (spread rt [] (.obj defaultHeaders)) a.headers
    match a.method with
    | .str m =>
      let options :=
        fetchOptions (rt.toUpperCase m) finalHeaders a.body a.timeout a.follow_redirects
      match rt.fetch finalUrl options with
      | .error e =>
        (.error e,
          [.buildUrl a.url a.query_params, .setTimeout a.timeout, .fetch finalUrl options])
      | .ok response =>
        (readResponse rt response,
          [.buildUrl a.url a.query_params, .setTimeout a.timeout, .fetch finalUrl options,
            .clearTimeout])
    | .undefined | .null =>
      (.error { name := "TypeError"
                message := "Cannot read properties of " ++ jsToString rt a.method
                  ++ " (reading 'toUpperCase')" },
        [.buildUrl a.url a.query_params, .setTimeout a.timeout])
    | _ =>
      (.error { name := "TypeError", message := "method.toUpperCase is not a function" },
        [.buildUrl a.url a.query_params, .setTimeout a.timeout])

/-- The method `handleHttpRequest(args)`. -/
def handleHttpRequest (rt : Runtime) (defaultHeaders : Obj) (args : JsVal) : Run :=
  match args with
  | .undefined | .null =>
    { result := .error (.other (destructureError rt "url" args)), defaultHeaders, trace := [] }
  | _ =>
    let a := destructureRequest rt args
    if !truthy a.url then
      { result := .error (.mcp .InvalidParams "URL is required"), defaultHeaders, trace := [] }
    else
      match requestAttempt rt defaultHeaders a with
      | (.ok r, trace) => { result := .ok r, defaultHeaders, trace }
      | (.error error, trace) =>
        if error.name = "AbortError" then
          { result := .error (.mcp .InternalError
              ("Request timed out after " ++ jsToString rt a.timeout ++ "ms"))
            defaultHeaders, trace }
        else
          { result := .ok { content := [{ type := "text", text := jsonStringify rt [
              ("success", .bool false),
              ("error", .str error.message),
              ("type", .str error.name),
              ("url", a.url)] }] }
            defaultHeaders, trace }

/-- The method `handleHttpGet(args)`. -/
def handleHttpGet (rt : Runtime) (defaultHeaders : Obj) (args : JsVal) : Run :=
  handleHttpRequest rt defaultHeaders (.obj (Obj.set (spread rt [] args) "method" (.str "GET")))

/-- The method `handleHttpPost(args)`. -/
def handleHttpPost (rt : Runtime) (defaultHeaders : Obj) (args : JsVal) : Run :=
  match args with
  | .undefined | .null =>
    { result := .error (.other (destructureError rt "url" args)), defaultHeaders, trace := [] }
  | _ =>
    let url := getProp rt args "url"
    let data := getProp rt args "data"
    let content_type := orDefault (getProp rt args "content_type") (.str "application/json")
    let headers := orDefault (getProp rt args "headers") (.obj [])
    if !truthy data then
      { result := .error (.mcp .InvalidParams "Data is required for POST")
        defaultHeaders, trace := [] }
    else
      let finalHeaders := spread rt [("Content-Type", content_type)] headers
      handleHttpRequest rt defaultHeaders (.obj [
        ("url", url),
        ("method", .str "POST"),
        ("headers", .obj finalHeaders),
        ("body", data)])

/-- The method `handleSetDefaultHeaders(args)`. -/
def handleSetDefaultHeaders (rt : Runtime) (defaultHeaders : Obj) (args : JsVal) : Run :=
  match args with
  | .undefined | .null =>
    { result := .error (.other (destructureError rt "headers" args)), defaultHeaders
      trace := [] }
  | _ =>
    let headers := getProp rt args "headers"
    let merge := orDefault (getProp rt args "merge") (.bool true)
    if !truthy headers || typeof headers != "object" then
      { result := .error (.mcp .InvalidParams "Headers object is required")
        defaultHeaders, trace := [] }
    else
      let updated :=
        if truthy merge then spread rt (spread rt [] (.obj defaultHeaders)) headers
        else spread rt [] headers
      { result := .ok { content := [{ type := "text", text := jsonStringify rt [
          ("success", .bool true),
          ("message", .str "Default headers updated"),
          ("current_defaults", .obj updated)] }] }
        defaultHeaders := updated
        trace := [] }

/-- The schema `{ type: "object", additionalProperties: { type: "string" } }`. -/
def stringMapSchema : JsVal :=
  .obj [("type", .str "object"), ("additionalProperties", .obj [("type", .str "string")])]

/-- The `ListToolsRequestSchema` handler's `tools` (lines 36-135). -/
def listTools : List JsVal := [
  .obj [
    ("name", .str "http_request"),
    ("description", .str
      "Make HTTP requests with any method (GET, POST, PUT, DELETE, PATCH, HEAD, OPTIONS, etc.)"),
    ("inputSchema", .obj [
      ("type", .str "object"),
      ("properties", .obj [
        ("url", .obj [("type", .str "string")]),
        ("method", .obj [
          ("type", .str "string"),
          ("enum", .arr [.str "GET", .str "POST", .str "PUT", .str "DELETE", .str "PATCH",
            .str "HEAD", .str "OPTIONS", .str "CONNECT", .str "TRACE"]),
          ("default", .str "GET")]),
        ("headers", stringMapSchema),
        ("body", .obj [("type", .str "string")]),
        ("query_params", stringMapSchema),
        ("timeout", .obj [("type", .str "integer"), ("default", .num 30000)]),
        ("follow_redirects", .obj [("type", .str "boolean"), ("default", .bool true)])]),
      ("required", .arr [.str "url"])])],
  .obj [
    ("name", .str "http_get"),
    ("description", .str "Simplified GET request"),
    ("inputSchema", .obj [
      ("type", .str "object"),
      ("properties", .obj [
        ("url", .obj [("type", .str "string")]),
        ("headers", stringMapSchema),
        ("query_params", stringMapSchema)]),
      ("required", .arr [.str "url"])])],
  .obj [
    ("name", .str "http_post"),
    ("description", .str "Simplified POST request"),
    ("inputSchema", .obj [
      ("type", .str "object"),
      ("properties", .obj [
        ("url", .obj [("type", .str "string")]),
        ("data", .obj [("type", .str "string")]),
        ("content_type", .obj [
          ("type", .str "string"),
          ("enum", .arr [.str "application/json", .str "application/x-www-form-urlencoded",
            .str "text/plain", .str "application/xml"]),
          ("default", .str "application/json")]),
        ("headers", stringMapSchema)]),
      ("required", .arr [.str "url", .str "data"])])],
  .obj [
    ("name", .str "set_default_headers"),
    ("description", .str "Set headers for all requests"),
    ("inputSchema", .obj [
      ("type", .str "object"),
      ("properties", .obj [
        ("headers", stringMapSchema),
        ("merge", .obj [("type", .str "boolean"), ("default", .bool true)])]),
      ("required", .arr [.str "headers"])])]]

/-- The `name` of a tool descriptor. -/
def toolName : JsVal → Option String
  | .obj props =>
    match Obj.get props "name" with
    | some (.str s) => some s
    | _ => none
  | _ => none

/-- The names of the listed tools. -/
def toolNames : List String :=
  listTools.filterMap toolName

/-- The `switch` of the `CallToolRequestSchema` handler (lines 144-158). -/
def dispatch (rt : Runtime) (defaultHeaders : Obj) (name : String) (args : JsVal) : Run :=
  if name = "http_request" then handleHttpRequest rt defaultHeaders args
  else if name = "http_get" then handleHttpGet rt defaultHeaders args
  else if name = "http_post" then handleHttpPost rt defaultHeaders args
  else if name = "set_default_headers" then handleSetDefaultHeaders rt defaultHeaders args
  else
    { result := .error (.mcp .MethodNotFound ("Unknown tool: " ++ name))
      defaultHeaders, trace := [] }

/-- The `CallToolRequestSchema` handler: an `McpError` is rethrown, any other
exception is wrapped into an `InternalError`. -/
def callTool (rt : Runtime) (defaultHeaders : Obj) (name : String) (args : JsVal) : Run :=
  let run := dispatch rt defaultHeaders name args
  match run.result with
  | .error (.other error) =>
    { run with
      result := .error (.mcp .InternalError ("Tool execution failed: " ++ error.message)) }
  | _ => run

/-! ## A sample environment

A small, executable `Runtime` on which the handlers can be evaluated. -/

/-- A sample `new URL`: knows one URL with a query, and accepts what else starts
with `http://` as a URL without query and fragment. -/
def sampleNewURL (s : String) : Except Failure URL :=
  if s = "http://a.test/?q=1" then
    .ok { beforeQuery := "http://a.test/", query := some "q=1", searchParams := [("q", "1")]
          fragment := none }
  else if s.data.take 7 = "http://".data then
    .ok { beforeQuery := s, query := none, searchParams := [], fragment := none }
  else .error { name := "TypeError", message := "Invalid URL" }

/-- A sample network: the host `slow.test` never answers in time, the host
`down.test` is unreachable, every other URL string answers `200` with the text
`hello`. -/
def sampleFetch (url : JsVal) (_options : FetchOptions) : Except Failure Response :=
  match url with
  | .str s =>
    if s.data.take 17 = "http://slow.test/".data then
      .error { name := "AbortError", message := "This operation was aborted" }
    else if s.data.take 17 = "http://down.test/".data then
      .error { name := "TypeError", message := "fetch failed" }
    else
      .ok { status := 200, headers := [("content-type", "text/plain")], url := s,
            text := .ok "hello" }
  | _ => .error { name := "TypeError", message := "Failed to parse URL" }

/-- The sample environment. -/
def sampleRuntime : Runtime where
  numberToString := toString
  numberToString_safe := fun _ _ => rfl
  codeUnits := fun s => s.data.map fun c => JsVal.str (String.singleton c)
  codeUnits_bmp := fun _ _ => rfl
  toUpperCase := upperAscii
  toUpperCase_ascii := fun _ _ => rfl
  newURL := sampleNewURL
  fetch := sampleFetch
  jsonParse := fun _ => .error { name := "SyntaxError", message := "Unexpected token" }

/-! ## Auxiliary notions -/

/-- The keys of an object. -/
def Obj.keys (o : Obj) : List String :=
  o.map Prod.fst

/-- The value `handleSetDefaultHeaders` stores (lines 313-317) when the argument
object `a` carries the map `h` as `headers`. -/
def updatedDefaults (rt : Runtime) (defaultHeaders : Obj) (a : Obj) (h : Obj) : Obj :=
  if truthy (orDefault (getProp rt (.obj a) "merge") (.bool true)) then
    spread rt (spread rt [] (.obj defaultHeaders)) (.obj h)
  else spread rt [] (.obj h)

/-! ## Objects: reading after writing -/

theorem Obj.get_eq_none_iff (o : Obj) (k : String) :
    Obj.get o k = none ↔ k ∉ Obj.keys o := by
  induction o with
  | nil => simp [Obj.get, Obj.keys]
  | cons p rest ih =>
    obtain ⟨k2, v2⟩ := p
    by_cases h : k2 = k
    · simp [Obj.get, Obj.keys, h]
    · have h2 : ¬ k = k2 := fun e => h e.symm
      simp only [Obj.keys] at ih
      simp [Obj.get, Obj.keys, h, h2, ih]

theorem Obj.get_append (a b : Obj) (k : String) :
    Obj.get (a ++ b) k = (Obj.get a k).or (Obj.get b k) := by
  induction a with
  | nil => simp [Obj.get]
  | cons p rest ih =>
    obtain ⟨k2, v2⟩ := p
    by_cases h : k2 = k
    · simp [Obj.get, h]
    · simp [Obj.get, h, ih]

theorem Obj.get_replace (o : Obj) (k : String) (v : JsVal) (k2 : String) :
    Obj.get (Obj.replace o k v) k2
      = if k = k2 then (Obj.get o k).map (fun _ => v) else Obj.get o k2 := by
  induction o with
  | nil => simp [Obj.replace, Obj.get]
  | cons p rest ih =>
    obtain ⟨k1, v1⟩ := p
    by_cases h : k1 = k
    · subst h
      by_cases h2 : k1 = k2
      · simp [Obj.replace, Obj.get, h2]
      · simp [Obj.replace, Obj.get, h2]
    · by_cases h2 : k = k2
      · subst h2
        simp [Obj.replace, Obj.get, h, ih]
      · by_cases h3 : k1 = k2
        · subst h3
          simp [Obj.replace, Obj.get, h, h2]
        · simp [Obj.replace, Obj.get, h, h2, h3, ih]

theorem Obj.get_insertNew (o : Obj) (k : String) (v : JsVal) (k2 : String)
    (hk : Obj.get o k = none) :
    Obj.get (Obj.insertNew o k v) k2 = if k = k2 then some v else Obj.get o k2 := by
  induction o with
  | nil => simp [Obj.insertNew, Obj.get]
  | cons p rest ih =>
    obtain ⟨k1, v1⟩ := p
    have h1 : ¬ k1 = k := by
      intro e
      simp [Obj.get, e] at hk
    have hrest : Obj.get rest k = none := by
      simpa [Obj.get, h1] using hk
    by_cases hb : enumeratedBefore k k1 = true
    · simp [Obj.insertNew, Obj.get, hb]
    · by_cases h2 : k = k2
      · subst h2
        simp [Obj.insertNew, Obj.get, hb, h1, ih hrest]
      · by_cases h3 : k1 = k2
        · subst h3
          simp [Obj.insertNew, Obj.get, hb, h2]
        · simp [Obj.insertNew, Obj.get, hb, h2, h3, ih hrest]

/-- Reading a key after `Obj.set`: the written key gives the new value, every
other key is untouched. -/
theorem Obj.get_set (o : Obj) (k : String) (v : JsVal) (k2 : String) :
    Obj.get (Obj.set o k v) k2 = if k = k2 then some v else Obj.get o k2 := by
  unfold Obj.set Obj.hasKey
  cases hg : Obj.get o k with
  | none => simpa using Obj.get_insertNew o k v k2 hg
  | some x =>
    have := Obj.get_replace o k v k2
    simp [hg] at this
    simpa using this

theorem Obj.keys_replace (o : Obj) (k : String) (v : JsVal) :
    Obj.keys (Obj.replace o k v) = Obj.keys o := by
  induction o with
  | nil => rfl
  | cons p rest ih =>
    obtain ⟨k1, v1⟩ := p
    by_cases h : k1 = k
    · simp [Obj.replace, Obj.keys, h]
    · simp only [Obj.keys] at ih
      simp [Obj.replace, Obj.keys, h, ih]

theorem Obj.keys_insertNew (o : Obj) (k : String) (v : JsVal) :
    (Obj.keys (Obj.insertNew o k v)).Perm (k :: Obj.keys o) := by
  induction o with
  | nil => simp [Obj.insertNew, Obj.keys]
  | cons p rest ih =>
    obtain ⟨k1, v1⟩ := p
    by_cases hb : enumeratedBefore k k1 = true
    · simp [Obj.insertNew, Obj.keys, hb]
    · simp only [Obj.keys] at ih
      simp only [Obj.insertNew, hb, Obj.keys, List.map_cons]
      exact (List.Perm.cons k1 ih).trans (List.Perm.swap k k1 _)

/-- Defining a property keeps the keys of an object distinct. -/
theorem Obj.nodup_keys_set (o : Obj) (k : String) (v : JsVal)
    (h : (Obj.keys o).Nodup) : (Obj.keys (Obj.set o k v)).Nodup := by
  unfold Obj.set Obj.hasKey
  cases hg : Obj.get o k with
  | none =>
    have hk : k ∉ Obj.keys o := (Obj.get_eq_none_iff o k).mp hg
    have hp := Obj.keys_insertNew o k v
    simpa using hp.nodup_iff.mpr (List.nodup_cons.mpr ⟨hk, h⟩)
  | some x => simpa [Obj.keys_replace] using h

theorem Obj.nodup_keys_foldl (props : Obj) (t : Obj) (h : (Obj.keys t).Nodup) :
    (Obj.keys (props.foldl (fun acc kv => Obj.set acc kv.1 kv.2) t)).Nodup := by
  induction props generalizing t with
  | nil => simpa using h
  | cons p rest ih => exact ih _ (Obj.nodup_keys_set t p.1 p.2 h)

/-- A spread onto an object with distinct keys gives an object with distinct keys. -/
theorem nodup_keys_spread {rt : Runtime} (t : Obj) (src : JsVal) (h : (Obj.keys t).Nodup) :
    (Obj.keys (spread rt t src)).Nodup :=
  Obj.nodup_keys_foldl _ t h

theorem Obj.get_foldl_set (props : Obj) (t : Obj) (k : String) :
    Obj.get (props.foldl (fun acc kv => Obj.set acc kv.1 kv.2) t) k
      = (Obj.get props.reverse k).or (Obj.get t k) := by
  induction props generalizing t with
  | nil => simp [Obj.get]
  | cons p rest ih =>
    obtain ⟨k1, v1⟩ := p
    simp only [List.foldl_cons, List.reverse_cons]
    rw [ih, Obj.get_append, Obj.get_set]
    by_cases h : k1 = k
    · cases hr : Obj.get rest.reverse k <;> simp [Obj.get, h]
    · cases hr : Obj.get rest.reverse k <;> simp [Obj.get, h]

theorem Obj.get_reverse (o : Obj) (k : String) (h : (Obj.keys o).Nodup) :
    Obj.get o.reverse k = Obj.get o k := by
  induction o with
  | nil => rfl
  | cons p rest ih =>
    obtain ⟨k1, v1⟩ := p
    have hn : k1 ∉ Obj.keys rest ∧ (Obj.keys rest).Nodup := by
      simpa [Obj.keys] using h
    rw [List.reverse_cons, Obj.get_append, ih hn.2]
    by_cases hk : k1 = k
    · subst hk
      have : Obj.get rest k1 = none := (Obj.get_eq_none_iff rest k1).mpr hn.1
      simp [Obj.get, this]
    · cases hr : Obj.get rest k <;> simp [Obj.get, hk, hr]

/-- Reading a key of `{ ...t, ...src }`: the value `src` has on it, and the value
of `t` when `src` lacks the key. -/
theorem get_spread {rt : Runtime} (t : Obj) (src : JsVal) (k : String)
    (h : (Obj.keys (ownProps rt src)).Nodup) :
    Obj.get (spread rt t src) k = (Obj.get (ownProps rt src) k).or (Obj.get t k) := by
  unfold spread
  rw [Obj.get_foldl_set, Obj.get_reverse _ _ h]

/-- A copy `{ ...src }` reads like `src`. -/
theorem get_spread_nil {rt : Runtime} (src : JsVal) (k : String)
    (h : (Obj.keys (ownProps rt src)).Nodup) :
    Obj.get (spread rt [] src) k = Obj.get (ownProps rt src) k := by
  rw [get_spread _ _ _ h]
  cases Obj.get (ownProps rt src) k <;> simp [Obj.get]

theorem getProp_obj (rt : Runtime) (o : Obj) (k : String) :
    getProp rt (.obj o) k = (Obj.get o k).getD .undefined := by
  unfold getProp ownProps
  cases Obj.get o k <;> rfl

/-! ## Validation of required arguments -/

theorem handleHttpRequest_missing_url (rt : Runtime) (defaultHeaders : Obj) (props : Obj)
    (h : Obj.get props "url" = none) :
    handleHttpRequest rt defaultHeaders (.obj props)
      = { result := .error (.mcp .InvalidParams "URL is required")
          defaultHeaders := defaultHeaders, trace := [] } := by
  simp [handleHttpRequest, destructureRequest, getProp_obj, h, truthy]

/-- C3: an argument object without `url` makes `http_request` throw
`McpError(InvalidParams, "URL is required")`, whatever the other fields are,
with no call made before it (no `buildUrl`, no `fetch`) and the default headers
untouched; the dispatcher rethrows that error unchanged. -/
theorem http_request_requires_url (rt : Runtime) (defaultHeaders : Obj) (props : Obj)
    (h : Obj.get props "url" = none) :
    handleHttpRequest rt defaultHeaders (.obj props)
        = { result := .error (.mcp .InvalidParams "URL is required")
            defaultHeaders := defaultHeaders, trace := [] }
      ∧ callTool rt defaultHeaders "http_request" (.obj props)
        = { result := .error (.mcp .InvalidParams "URL is required")
            defaultHeaders := defaultHeaders, trace := [] } := by
  have h1 : handleHttpRequest rt defaultHeaders (.obj props)
      = { result := .error (.mcp .InvalidParams "URL is required")
          defaultHeaders := defaultHeaders, trace := [] } := by
    simp [handleHttpRequest, destructureRequest, getProp_obj, h, truthy]
  refine ⟨h1, ?_⟩
  simp [callTool, dispatch, h1]

theorem http_request_requires_url_witness :
    Obj.get [("method", JsVal.str "POST"), ("body", JsVal.str "x")] "url" = none
      ∧ (handleHttpRequest sampleRuntime initialDefaultHeaders
          (.obj [("method", .str "POST"), ("body", .str "x")])).trace = [] :=
  ⟨rfl, congrArg Run.trace (http_request_requires_url sampleRuntime initialDefaultHeaders
    [("method", .str "POST"), ("body", .str "x")] rfl).1⟩

/-- C4: an argument object without `data` makes `http_post` throw
`McpError(InvalidParams, "Data is required for POST")`, whatever the other
fields are (`url` present or not), before `handleHttpRequest` is reached: no
call is made, and the dispatcher rethrows that error unchanged. -/
theorem http_post_requires_data (rt : Runtime) (defaultHeaders : Obj) (props : Obj)
    (h : Obj.get props "data" = none) :
    handleHttpPost rt defaultHeaders (.obj props)
        = { result := .error (.mcp .InvalidParams "Data is required for POST")
            defaultHeaders := defaultHeaders, trace := [] }
      ∧ callTool rt defaultHeaders "http_post" (.obj props)
        = { result := .error (.mcp .InvalidParams "Data is required for POST")
            defaultHeaders := defaultHeaders, trace := [] } := by
  have h1 : handleHttpPost rt defaultHeaders (.obj props)
      = { result := .error (.mcp .InvalidParams "Data is required for POST")
          defaultHeaders := defaultHeaders, trace := [] } := by
    simp [handleHttpPost, getProp_obj, h, truthy]
  refine ⟨h1, ?_⟩
  simp [callTool, dispatch, h1]

theorem http_post_requires_data_witness :
    Obj.get [("url", JsVal.str "http://a.test/")] "data" = none
      ∧ (handleHttpPost sampleRuntime initialDefaultHeaders
          (.obj [("url", .str "http://a.test/")])).result
        = .error (.mcp .InvalidParams "Data is required for POST") :=
  ⟨rfl, congrArg Run.result (http_post_requires_data sampleRuntime initialDefaultHeaders
    [("url", .str "http://a.test/")] rfl).1⟩

/-! ## Default headers -/

theorem handleSetDefaultHeaders_obj (rt : Runtime) (defaultHeaders : Obj) (a h : Obj)
    (ha : Obj.get a "headers" = some (.obj h)) :
    handleSetDefaultHeaders rt defaultHeaders (.obj a)
      = { result := .ok { content := [{ type := "text", text := jsonStringify rt [
            ("success", .bool true),
            ("message", .str "Default headers updated"),
            ("current_defaults", .obj (updatedDefaults rt defaultHeaders a h))] }] }
          defaultHeaders := updatedDefaults rt defaultHeaders a h
          trace := [] } := by
  simp [handleSetDefaultHeaders, updatedDefaults, getProp_obj, ha, truthy, typeof]

theorem nodup_keys_updatedDefaults {rt : Runtime} (defaultHeaders a h : Obj) :
    (Obj.keys (updatedDefaults rt defaultHeaders a h)).Nodup := by
  unfold updatedDefaults
  split
  · exact nodup_keys_spread _ _ (nodup_keys_spread _ _ (by simp [Obj.keys]))
  · exact nodup_keys_spread _ _ (by simp [Obj.keys])

theorem get_updatedDefaults_of_mem {rt : Runtime} (defaultHeaders a h : Obj)
    (hw : (Obj.keys h).Nodup)
    (k : String) (v : JsVal) (hk : Obj.get h k = some v) :
    Obj.get (updatedDefaults rt defaultHeaders a h) k = some v := by
  unfold updatedDefaults
  split
  · rw [get_spread _ _ _ (by simpa [ownProps] using hw)]
    simp [ownProps, hk]
  · rw [get_spread _ _ _ (by simpa [ownProps] using hw)]
    simp [ownProps, hk]

/-- C1: two `set_default_headers` calls with header maps `h1` then `h2`, from any
state. When the second call has `merge` true or omitted, every key of `h2` reads
with the value of `h2` and every key of `h1` that `h2` lacks reads with the value
of `h1`. When the second call has `merge` false, the stored headers read exactly
like `h2` on every key, with no key twice. In both cases the call returns one
text item, the `JSON.stringify` text of the confirmation whose `current_defaults`
is the stored value. -/
theorem set_default_headers_twice (rt : Runtime) (defaultHeaders : Obj) (a1 a2 h1 h2 : Obj)
    (hw1 : (Obj.keys h1).Nodup) (hw2 : (Obj.keys h2).Nodup)
    (ha1 : Obj.get a1 "headers" = some (.obj h1))
    (ha2 : Obj.get a2 "headers" = some (.obj h2)) :
    let first := handleSetDefaultHeaders rt defaultHeaders (.obj a1)
    let second := handleSetDefaultHeaders rt first.defaultHeaders (.obj a2)
    ((Obj.get a2 "merge" = some (.bool true) ∨ Obj.get a2 "merge" = none) →
        (∀ k v, Obj.get h2 k = some v → Obj.get second.defaultHeaders k = some v)
          ∧ (∀ k v, Obj.get h1 k = some v → Obj.get h2 k = none →
              Obj.get second.defaultHeaders k = some v))
      ∧ (Obj.get a2 "merge" = some (.bool false) →
          (∀ k, Obj.get second.defaultHeaders k = Obj.get h2 k)
            ∧ (Obj.keys second.defaultHeaders).Nodup)
      ∧ second.result = .ok { content := [{ type := "text", text := jsonStringify rt [
          ("success", .bool true),
          ("message", .str "Default headers updated"),
          ("current_defaults", .obj second.defaultHeaders)] }] } := by
  intro first second
  have hfirst : first.defaultHeaders = updatedDefaults rt defaultHeaders a1 h1 := by
    show (handleSetDefaultHeaders rt defaultHeaders (.obj a1)).defaultHeaders = _
    rw [handleSetDefaultHeaders_obj rt defaultHeaders a1 h1 ha1]
  have hsecond : second = _ := handleSetDefaultHeaders_obj rt first.defaultHeaders a2 h2 ha2
  have hnd1 : (Obj.keys first.defaultHeaders).Nodup := by
    rw [hfirst]; exact nodup_keys_updatedDefaults _ _ _
  have hown2 : (Obj.keys (ownProps rt (.obj h2))).Nodup := by simpa [ownProps] using hw2
  refine ⟨?_, ?_, ?_⟩
  · intro hm
    have hmerge : updatedDefaults rt first.defaultHeaders a2 h2
        = spread rt (spread rt [] (.obj first.defaultHeaders)) (.obj h2) := by
      rcases hm with hm | hm <;> simp [updatedDefaults, getProp_obj, hm, orDefault, truthy]
    rw [hsecond]
    refine ⟨fun k v hk => ?_, fun k v hk hno => ?_⟩
    · exact get_updatedDefaults_of_mem _ _ _ hw2 k v hk
    · show Obj.get (updatedDefaults rt first.defaultHeaders a2 h2) k = some v
      rw [hmerge, get_spread _ _ _ hown2,
        get_spread_nil _ _ (by simpa [ownProps] using hnd1)]
      simp only [ownProps, hno, Option.none_or]
      rw [hfirst]
      exact get_updatedDefaults_of_mem _ _ _ hw1 k v hk
  · intro hm
    have hreplace : updatedDefaults rt first.defaultHeaders a2 h2 = spread rt [] (.obj h2) := by
      simp [updatedDefaults, getProp_obj, hm, orDefault, truthy]
    rw [hsecond]
    refine ⟨fun k => ?_, ?_⟩
    · show Obj.get (updatedDefaults rt first.defaultHeaders a2 h2) k = _
      rw [hreplace, get_spread_nil _ _ hown2]
      rfl
    · exact nodup_keys_updatedDefaults _ _ _
  · rw [hsecond]

theorem set_default_headers_twice_witness :
    (Obj.keys [("A", JsVal.str "1")]).Nodup ∧ (Obj.keys [("B", JsVal.str "2")]).Nodup
      ∧ Obj.get (handleSetDefaultHeaders sampleRuntime
          (handleSetDefaultHeaders sampleRuntime initialDefaultHeaders
            (.obj [("headers", .obj [("A", .str "1")])])).defaultHeaders
          (.obj [("headers", .obj [("B", .str "2")])])).defaultHeaders "A"
        = some (.str "1")
      ∧ (handleSetDefaultHeaders sampleRuntime
          (handleSetDefaultHeaders sampleRuntime initialDefaultHeaders
            (.obj [("headers", .obj [("A", .str "1")])])).defaultHeaders
          (.obj [("headers", .obj [("B", .str "2")])])).result
        = .ok { content := [{ type := "text", text :=
            "\x7b\n  \"success\": true,\n  \"message\": \"Default headers updated\",\n"
            ++ "  \"current_defaults\": \x7b\n    \"User-Agent\": \"MCP-HTTP-Client/1.0\",\n"
            ++ "    \"A\": \"1\",\n    \"B\": \"2\"\n  \x7d\n\x7d" }] } :=
  ⟨by decide, by decide,
    ((set_default_headers_twice sampleRuntime initialDefaultHeaders
      [("headers", .obj [("A", .str "1")])] [("headers", .obj [("B", .str "2")])]
      [("A", .str "1")] [("B", .str "2")] (by decide) (by decide) rfl rfl).1
        (Or.inr rfl)).2 "A" (.str "1") rfl rfl,
    (set_default_headers_twice sampleRuntime initialDefaultHeaders
      [("headers", .obj [("A", .str "1")])] [("headers", .obj [("B", .str "2")])]
      [("A", .str "1")] [("B", .str "2")] (by decide) (by decide) rfl rfl).2.2.trans
        rfl⟩

/-- C7: `set_default_headers` throws `McpError(InvalidParams, "Headers object is
required")` when `headers` is missing, `undefined`, `null`, a string, a number
or a boolean, whatever `merge` is; a list passes the test `typeof headers !==
"object"`: with `headers = ["x"]` the call succeeds and stores the key `"0"`. -/
theorem set_default_headers_accepts_list (rt : Runtime) :
    (∀ (defaultHeaders props : Obj),
        (Obj.get props "headers" = none ∨ Obj.get props "headers" = some .undefined
          ∨ Obj.get props "headers" = some .null
          ∨ (∃ s, Obj.get props "headers" = some (.str s))
          ∨ (∃ n, Obj.get props "headers" = some (.num n))
          ∨ (∃ b, Obj.get props "headers" = some (.bool b))) →
        handleSetDefaultHeaders rt defaultHeaders (.obj props)
          = { result := .error (.mcp .InvalidParams "Headers object is required")
              defaultHeaders := defaultHeaders, trace := [] })
      ∧ handleSetDefaultHeaders rt initialDefaultHeaders
          (.obj [("headers", .arr [.str "x"])])
        = { result := .ok { content := [{ type := "text", text := jsonStringify rt [
              ("success", .bool true),
              ("message", .str "Default headers updated"),
              ("current_defaults",
                .obj [("0", .str "x"), ("User-Agent", .str "MCP-HTTP-Client/1.0")])] }] }
            defaultHeaders := [("0", .str "x"), ("User-Agent", .str "MCP-HTTP-Client/1.0")]
            trace := [] } := by
  refine ⟨?_, rfl⟩
  intro defaultHeaders props h
  rcases h with h | h | h | ⟨s, h⟩ | ⟨n, h⟩ | ⟨b, h⟩
  · simp [handleSetDefaultHeaders, getProp_obj, h, truthy]
  · simp [handleSetDefaultHeaders, getProp_obj, h, truthy]
  · simp [handleSetDefaultHeaders, getProp_obj, h, truthy]
  · by_cases hs : s = "" <;> simp [handleSetDefaultHeaders, getProp_obj, h, truthy, typeof, hs]
  · by_cases hn : n = 0 <;> simp [handleSetDefaultHeaders, getProp_obj, h, truthy, typeof, hn]
  · cases b <;> simp [handleSetDefaultHeaders, getProp_obj, h, truthy, typeof]


/-! ## Failures of the call phase -/

theorem numberToString_30000 (rt : Runtime) : rt.numberToString 30000 = "30000" := by
  rw [rt.numberToString_safe 30000 (by decide)]
  decide

/-- C2: an `http_request` with a truthy `url` whose `try` block throws `e`. The
handler throws if and only if `e.name` is `AbortError`, and then it throws
`McpError(InternalError, "Request timed out after Nms")` with `N` the `timeout`
argument as a template literal prints it: `30000` when it is missing, the
decimal numeral when it is a safe integer. For every other `e` it returns one
text item, the `JSON.stringify` text of the Error Envelope with `success` false,
`error` and `type` the message and name of `e`, and `url` the argument as given.
The dispatcher passes both outcomes on. -/
theorem http_request_failure_asymmetry (rt : Runtime) (defaultHeaders props : Obj)
    (e : Failure) (trace : List Event)
    (hurl : truthy (getProp rt (.obj props) "url") = true)
    (hfail : requestAttempt rt defaultHeaders (destructureRequest rt (.obj props))
      = (.error e, trace)) :
    let run := handleHttpRequest rt defaultHeaders (.obj props)
    ((∃ t, run.result = .error t) ↔ e.name = "AbortError")
      ∧ (e.name = "AbortError" →
          run.result = .error (.mcp .InternalError ("Request timed out after "
            ++ jsToString rt (orDefault (getProp rt (.obj props) "timeout") (.num 30000))
            ++ "ms")))
      ∧ (e.name = "AbortError" → Obj.get props "timeout" = none →
          run.result = .error (.mcp .InternalError "Request timed out after 30000ms"))
      ∧ (∀ n : Int, n.natAbs ≤ 9007199254740991 → e.name = "AbortError" →
          Obj.get props "timeout" = some (.num n) →
          run.result = .error (.mcp .InternalError
            ("Request timed out after " ++ toString n ++ "ms")))
      ∧ (e.name ≠ "AbortError" →
          run.result = .ok { content := [{ type := "text", text := jsonStringify rt [
            ("success", .bool false),
            ("error", .str e.message),
            ("type", .str e.name),
            ("url", getProp rt (.obj props) "url")] }] })
      ∧ run.trace = trace
      ∧ callTool rt defaultHeaders "http_request" (.obj props) = run := by
  intro run
  have hurl2 : truthy (destructureRequest rt (.obj props)).url = true := hurl
  have habort : e.name = "AbortError" →
      run.result = .error (.mcp .InternalError ("Request timed out after "
        ++ jsToString rt (orDefault (getProp rt (.obj props) "timeout") (.num 30000))
        ++ "ms")) := by
    intro hn
    show (handleHttpRequest rt defaultHeaders (.obj props)).result = _
    simp only [handleHttpRequest, hurl2, hfail, hn]
    rfl
  have hother : e.name ≠ "AbortError" →
      run.result = .ok { content := [{ type := "text", text := jsonStringify rt [
        ("success", .bool false),
        ("error", .str e.message),
        ("type", .str e.name),
        ("url", getProp rt (.obj props) "url")] }] } := by
    intro hn
    show (handleHttpRequest rt defaultHeaders (.obj props)).result = _
    simp only [handleHttpRequest, hurl2, hfail, hn]
    rfl
  have htrace : run.trace = trace := by
    show (handleHttpRequest rt defaultHeaders (.obj props)).trace = _
    simp only [handleHttpRequest, hurl2, hfail]
    by_cases hn : e.name = "AbortError" <;> simp [hn]
  refine ⟨?_, habort, ?_, ?_, hother, htrace, ?_⟩
  · constructor
    · rintro ⟨t, ht⟩
      by_contra hn
      rw [hother hn] at ht
      cases ht
    · intro hn
      exact ⟨_, habort hn⟩
  · intro hn ht
    rw [habort hn]
    simp only [getProp_obj, ht, Option.getD_none, orDefault, jsToString, numberToString_30000]
    rfl
  · intro n hsafe hn ht
    rw [habort hn]
    simp only [getProp_obj, ht, Option.getD_some, orDefault, jsToString,
      rt.numberToString_safe n hsafe]
  · by_cases hn : e.name = "AbortError"
    · have := habort hn
      simp only [callTool, dispatch]
      show (match run.result with
        | .error (.other error) => _
        | _ => run) = run
      rw [this]
    · have := hother hn
      simp only [callTool, dispatch]
      show (match run.result with
        | .error (.other error) => _
        | _ => run) = run
      rw [this]

theorem http_request_failure_asymmetry_witness :
    truthy (getProp sampleRuntime (.obj [("url", .str "http://slow.test/")]) "url") = true
      ∧ (handleHttpRequest sampleRuntime initialDefaultHeaders
          (.obj [("url", .str "http://slow.test/")])).result
        = .error (.mcp .InternalError "Request timed out after 30000ms")
      ∧ (handleHttpRequest sampleRuntime initialDefaultHeaders
          (.obj [("url", .str "http://down.test/"), ("query_params", .obj [("q", .str "1")])])).result
        = .ok { content := [{ type := "text", text :=
            "\x7b\n  \"success\": false,\n  \"error\": \"fetch failed\",\n"
            ++ "  \"type\": \"TypeError\",\n  \"url\": \"http://down.test/\"\n\x7d" }] } :=
  ⟨rfl, (http_request_failure_asymmetry sampleRuntime initialDefaultHeaders
    [("url", .str "http://slow.test/")]
    { name := "AbortError", message := "This operation was aborted" } _ rfl rfl).2.2.1
      rfl rfl,
    ((http_request_failure_asymmetry sampleRuntime initialDefaultHeaders
      [("url", .str "http://down.test/"), ("query_params", .obj [("q", .str "1")])]
      { name := "TypeError", message := "fetch failed" } _ rfl rfl).2.2.2.2.1
        (by decide)).trans rfl⟩

/-! ## Building the URL -/

theorem joinWith_cons_data (sep x : String) (xs : List String) :
    ∃ tail, (joinWith sep (x :: xs)).data = x.data ++ tail := by
  cases xs with
  | nil => exact ⟨[], by simp [joinWith]⟩
  | cons y rest => exact ⟨sep.data ++ (joinWith sep (y :: rest)).data, by simp [joinWith]⟩

/-- The serialisation of a non-empty list of pairs is not the empty string. -/
theorem formUrlEncode_ne_empty (p : String × String) (ps : List (String × String)) :
    formUrlEncode (p :: ps) ≠ "" := by
  intro h
  obtain ⟨tail, ht⟩ := joinWith_cons_data "&" (formEncodePair p) (ps.map formEncodePair)
  have hd : (formUrlEncode (p :: ps)).data = [] := by rw [h]
  have hd2 : (formEncodePair p).data ++ tail = [] := by
    rw [← ht]
    exact hd
  have hp : (formEncodePair p).data
      = (formEncode p.1).data ++ ('=' :: (formEncode p.2).data) := by
    simp [formEncodePair]
  rw [hp] at hd2
  simp at hd2

theorem URL.append_eq (u : URL) (k v : String) :
    u.append k v
      = { beforeQuery := u.beforeQuery
          query := some (formUrlEncode (u.searchParams ++ [(k, v)]))
          searchParams := u.searchParams ++ [(k, v)]
          fragment := u.fragment } := by
  have hne : formUrlEncode (u.searchParams ++ [(k, v)]) ≠ "" := by
    cases hs : u.searchParams with
    | nil => exact formUrlEncode_ne_empty _ _
    | cons p ps => exact formUrlEncode_ne_empty _ _
  simp [URL.append, hne]

/-- Appending the pairs of a non-empty map one by one: the list grows at its
end, in the order of the map, and the query is the serialisation of the list. -/
theorem foldl_append_searchParams (rt : Runtime) (p : String × JsVal) (rest : Obj) (u : URL) :
    (p :: rest).foldl (fun u kv => u.append kv.1 (jsToString rt kv.2)) u
      = { beforeQuery := u.beforeQuery
          query := some (formUrlEncode
            (u.searchParams ++ (p :: rest).map fun kv => (kv.1, jsToString rt kv.2)))
          searchParams := u.searchParams ++ (p :: rest).map fun kv => (kv.1, jsToString rt kv.2)
          fragment := u.fragment } := by
  induction rest generalizing p u with
  | nil => simp [URL.append_eq]
  | cons q rest ih =>
    rw [List.foldl_cons, ih q (u.append p.1 (jsToString rt p.2)), URL.append_eq]
    simp

theorem map_jsToString_str (rt : Runtime) (pairs : List (String × String)) :
    (pairs.map fun kv => (kv.1, JsVal.str kv.2)).map (fun kv => (kv.1, jsToString rt kv.2))
      = pairs := by
  induction pairs with
  | nil => rfl
  | cons q rest ih =>
    rw [List.map_cons, List.map_cons, ih]
    rfl

/-- C6: with a base URL that `new URL` accepts (as `u`) and a non-empty
`query_params` map, `buildUrl` returns the components of `u` before the query,
`?`, the `application/x-www-form-urlencoded` serialisation of the list that
`u.searchParams` had followed by the pairs of the map in iteration order (values
converted by `ToString`, strings unchanged), then the fragment: every pair is
there as `name=value`, joined by `&`, after the pairs the base URL had, and a
key already there stays and is followed by its second occurrence. With
`query_params` missing, falsy or empty the base URL is returned as given,
whether `new URL` would accept it or not. -/
theorem buildUrl_appends_query_params (rt : Runtime) (baseUrl : JsVal) (props : Obj) :
    (∀ u, rt.newURL (jsToString rt baseUrl) = .ok u → props ≠ [] →
        buildUrl rt baseUrl (.obj props)
            = .ok (.str (u.beforeQuery ++ "?"
                ++ formUrlEncode
                  (u.searchParams ++ props.map fun kv => (kv.1, jsToString rt kv.2))
                ++ (match u.fragment with
                  | some f => "#" ++ f
                  | none => "")))
          ∧ formUrlEncode (u.searchParams ++ props.map fun kv => (kv.1, jsToString rt kv.2))
            = joinWith "&" (u.searchParams.map formEncodePair
                ++ props.map fun kv => formEncode kv.1 ++ "=" ++ formEncode (jsToString rt kv.2)))
      ∧ (∀ u (pairs : List (String × String)),
          rt.newURL (jsToString rt baseUrl) = .ok u → pairs ≠ [] →
          buildUrl rt baseUrl (.obj (pairs.map fun kv => (kv.1, JsVal.str kv.2)))
            = .ok (.str (u.beforeQuery ++ "?" ++ formUrlEncode (u.searchParams ++ pairs)
                ++ (match u.fragment with
                  | some f => "#" ++ f
                  | none => ""))))
      ∧ (∀ e, rt.newURL (jsToString rt baseUrl) = .error e → props ≠ [] →
          buildUrl rt baseUrl (.obj props) = .error e)
      ∧ (∀ queryParams, truthy queryParams = false →
          buildUrl rt baseUrl queryParams = .ok baseUrl)
      ∧ buildUrl rt baseUrl .undefined = .ok baseUrl
      ∧ buildUrl rt baseUrl (.obj []) = .ok baseUrl := by
  have hmain : ∀ (u : URL) (ps : Obj), rt.newURL (jsToString rt baseUrl) = .ok u → ps ≠ [] →
      buildUrl rt baseUrl (.obj ps)
        = .ok (.str (u.beforeQuery ++ "?"
            ++ formUrlEncode (u.searchParams ++ ps.map fun kv => (kv.1, jsToString rt kv.2))
            ++ (match u.fragment with
              | some f => "#" ++ f
              | none => ""))) := by
    intro u ps hvalid hne
    cases ps with
    | nil => exact absurd rfl hne
    | cons p rest =>
      simp only [buildUrl, truthy, ownProps, hvalid, foldl_append_searchParams, URL.toString]
      simp [String.append_assoc]
  refine ⟨fun u hvalid hne => ⟨hmain u props hvalid hne, ?_⟩, ?_, ?_, ?_, ?_, ?_⟩
  · simp only [formUrlEncode, List.map_append, List.map_map]
    rfl
  · intro u pairs hvalid hne
    have hne2 : (pairs.map fun kv => (kv.1, JsVal.str kv.2)) ≠ [] := by
      cases pairs with
      | nil => exact absurd rfl hne
      | cons q rest => simp
    rw [hmain u _ hvalid hne2, map_jsToString_str]
  · intro e herr hne
    cases props with
    | nil => exact absurd rfl hne
    | cons p rest => simp [buildUrl, truthy, ownProps, herr]
  · intro queryParams hq
    simp [buildUrl, hq]
  · simp [buildUrl, truthy]
  · simp [buildUrl, truthy, ownProps]

theorem buildUrl_appends_query_params_witness :
    buildUrl sampleRuntime (.str "http://a.test/?q=1")
        (.obj [("q", .str "x y"), ("n", .num 2)])
      = .ok (.str "http://a.test/?q=1&q=x+y&n=2") :=
  ((buildUrl_appends_query_params sampleRuntime (.str "http://a.test/?q=1")
    [("q", .str "x y"), ("n", .num 2)]).1
    { beforeQuery := "http://a.test/", query := some "q=1", searchParams := [("q", "1")]
      fragment := none } rfl (by simp)).1.trans rfl

/-! ## Dispatch -/

theorem handleHttpRequest_not_methodNotFound (rt : Runtime) (defaultHeaders : Obj)
    (args : JsVal) (msg : String) :
    (handleHttpRequest rt defaultHeaders args).result ≠ .error (.mcp .MethodNotFound msg) := by
  have key : ∀ a : RequestArgs,
      (if !truthy a.url then
        ({ result := .error (.mcp .InvalidParams "URL is required"), defaultHeaders
           trace := [] } : Run)
      else
        match requestAttempt rt defaultHeaders a with
        | (.ok r, trace) => { result := .ok r, defaultHeaders, trace }
        | (.error error, trace) =>
          if error.name = "AbortError" then
            { result := .error (.mcp .InternalError
                ("Request timed out after " ++ jsToString rt a.timeout ++ "ms"))
              defaultHeaders, trace }
          else
            { result := .ok { content := [{ type := "text", text := jsonStringify rt [
                ("success", .bool false),
                ("error", .str error.message),
                ("type", .str error.name),
                ("url", a.url)] }] }
              defaultHeaders, trace }).result ≠ .error (.mcp .MethodNotFound msg) := by
    intro a
    split
    · simp
    · split
      · simp
      · split <;> simp
  cases args with
  | undefined => simp [handleHttpRequest]
  | null => simp [handleHttpRequest]
  | bool b => exact key _
  | num n => exact key _
  | str s => exact key _
  | arr xs => exact key _
  | obj props => exact key _

theorem handleHttpPost_not_methodNotFound (rt : Runtime) (defaultHeaders : Obj)
    (args : JsVal) (msg : String) :
    (handleHttpPost rt defaultHeaders args).result ≠ .error (.mcp .MethodNotFound msg) := by
  cases args with
  | undefined => simp [handleHttpPost]
  | null => simp [handleHttpPost]
  | bool b =>
    simp only [handleHttpPost]
    split
    · simp
    · exact handleHttpRequest_not_methodNotFound _ _ _ _
  | num n =>
    simp only [handleHttpPost]
    split
    · simp
    · exact handleHttpRequest_not_methodNotFound _ _ _ _
  | str s =>
    simp only [handleHttpPost]
    split
    · simp
    · exact handleHttpRequest_not_methodNotFound _ _ _ _
  | arr xs =>
    simp only [handleHttpPost]
    split
    · simp
    · exact handleHttpRequest_not_methodNotFound _ _ _ _
  | obj props =>
    simp only [handleHttpPost]
    split
    · simp
    · exact handleHttpRequest_not_methodNotFound _ _ _ _

theorem handleSetDefaultHeaders_not_methodNotFound (rt : Runtime) (defaultHeaders : Obj)
    (args : JsVal) (msg : String) :
    (handleSetDefaultHeaders rt defaultHeaders args).result
      ≠ .error (.mcp .MethodNotFound msg) := by
  cases args <;> simp only [handleSetDefaultHeaders] <;> (try split) <;> simp

theorem callTool_result_of_not_methodNotFound (run : Run) (msg : String)
    (h : ∀ m, run.result ≠ .error (.mcp .MethodNotFound m)) :
    (match run.result with
      | .error (.other error) =>
        { run with
          result := .error (.mcp .InternalError ("Tool execution failed: " ++ error.message)) }
      | _ => run).result ≠ .error (.mcp .MethodNotFound msg) := by
  split
  · simp
  · exact h msg

theorem dispatch_http_request (rt : Runtime) (defaultHeaders : Obj) (args : JsVal) :
    dispatch rt defaultHeaders "http_request" args = handleHttpRequest rt defaultHeaders args := by
  simp [dispatch]

theorem dispatch_http_get (rt : Runtime) (defaultHeaders : Obj) (args : JsVal) :
    dispatch rt defaultHeaders "http_get" args = handleHttpGet rt defaultHeaders args := by
  simp [dispatch]

theorem dispatch_http_post (rt : Runtime) (defaultHeaders : Obj) (args : JsVal) :
    dispatch rt defaultHeaders "http_post" args = handleHttpPost rt defaultHeaders args := by
  simp [dispatch]

theorem dispatch_set_default_headers (rt : Runtime) (defaultHeaders : Obj) (args : JsVal) :
    dispatch rt defaultHeaders "set_default_headers" args
      = handleSetDefaultHeaders rt defaultHeaders args := by
  simp [dispatch]

theorem toolNames_eq :
    toolNames = ["http_request", "http_get", "http_post", "set_default_headers"] := by
  decide

/-- C5: the tool call throws `McpError(MethodNotFound, ...)` if and only if the
name is not among the names of the listed tools, and then the message is
`Unknown tool: ` followed by the name; each of the four names reaches its own
handler; the list has exactly four descriptors, named `http_request`,
`http_get`, `http_post` and `set_default_headers`. -/
theorem callTool_unknown_tool_iff (rt : Runtime) (defaultHeaders : Obj) (name : String)
    (args : JsVal) :
    ((∃ msg, (callTool rt defaultHeaders name args).result
        = .error (.mcp .MethodNotFound msg)) ↔ name ∉ toolNames)
      ∧ ((callTool rt defaultHeaders name args).result
          = .error (.mcp .MethodNotFound ("Unknown tool: " ++ name)) ↔ name ∉ toolNames)
      ∧ dispatch rt defaultHeaders "http_request" args
          = handleHttpRequest rt defaultHeaders args
      ∧ dispatch rt defaultHeaders "http_get" args = handleHttpGet rt defaultHeaders args
      ∧ dispatch rt defaultHeaders "http_post" args = handleHttpPost rt defaultHeaders args
      ∧ dispatch rt defaultHeaders "set_default_headers" args
          = handleSetDefaultHeaders rt defaultHeaders args
      ∧ toolNames = ["http_request", "http_get", "http_post", "set_default_headers"]
      ∧ listTools.length = 4 := by
  have hknown : name ∈ toolNames →
      ∀ msg, (callTool rt defaultHeaders name args).result
        ≠ .error (.mcp .MethodNotFound msg) := by
    intro hmem msg
    rw [toolNames_eq] at hmem
    simp only [List.mem_cons, List.mem_singleton, List.not_mem_nil, or_false] at hmem
    unfold callTool
    apply callTool_result_of_not_methodNotFound
    intro m
    rcases hmem with h | h | h | h <;> subst h
    · rw [dispatch_http_request]
      exact handleHttpRequest_not_methodNotFound _ _ _ _
    · rw [dispatch_http_get]
      exact handleHttpRequest_not_methodNotFound _ _ _ _
    · rw [dispatch_http_post]
      exact handleHttpPost_not_methodNotFound _ _ _ _
    · rw [dispatch_set_default_headers]
      exact handleSetDefaultHeaders_not_methodNotFound _ _ _ _
  have hunknown : name ∉ toolNames →
      (callTool rt defaultHeaders name args).result
        = .error (.mcp .MethodNotFound ("Unknown tool: " ++ name)) := by
    intro hmem
    rw [toolNames_eq] at hmem
    simp only [List.mem_cons, List.mem_singleton, List.not_mem_nil, or_false, not_or] at hmem
    obtain ⟨h1, h2, h3, h4⟩ := hmem
    simp [callTool, dispatch, h1, h2, h3, h4]
  refine ⟨⟨?_, fun h => ⟨_, hunknown h⟩⟩, ⟨?_, hunknown⟩, dispatch_http_request _ _ _,
    dispatch_http_get _ _ _, dispatch_http_post _ _ _, dispatch_set_default_headers _ _ _,
    toolNames_eq, rfl⟩
  · rintro ⟨msg, hmsg⟩ hmem
    exact hknown hmem msg hmsg
  · intro hmsg hmem
    exact hknown hmem _ hmsg

/-! ## The issued HTTP call -/

/-- The HTTP calls of the `try` block: one call when `buildUrl` returns and
`method` is a string, none otherwise. -/
theorem fetchCalls_requestAttempt (rt : Runtime) (defaultHeaders : Obj) (a : RequestArgs) :
    fetchCalls (requestAttempt rt defaultHeaders a).2
      = match buildUrl rt a.url a.query_params, a.method with
        | .ok finalUrl, .str m =>
          [(finalUrl, fetchOptions (rt.toUpperCase m)
            (spread rt (spread rt [] (.obj defaultHeaders)) a.headers) a.body a.timeout
            a.follow_redirects)]
        | _, _ => [] := by
  unfold requestAttempt
  cases hb : buildUrl rt a.url a.query_params with
  | error e => simp [fetchCalls]
  | ok finalUrl =>
    cases hm : a.method with
    | str m =>
      simp only
      cases hf : rt.fetch finalUrl (fetchOptions (rt.toUpperCase m)
          (spread rt (spread rt [] (.obj defaultHeaders)) a.headers) a.body a.timeout
          a.follow_redirects) <;> simp [fetchCalls]
    | undefined => simp [fetchCalls]
    | null => simp [fetchCalls]
    | bool b => simp [fetchCalls]
    | num n => simp [fetchCalls]
    | arr xs => simp [fetchCalls]
    | obj o => simp [fetchCalls]

theorem handleHttpRequest_obj_trace (rt : Runtime) (defaultHeaders props : Obj) :
    (handleHttpRequest rt defaultHeaders (.obj props)).trace
      = if truthy (getProp rt (.obj props) "url") then
          (requestAttempt rt defaultHeaders (destructureRequest rt (.obj props))).2
        else [] := by
  have hu : (destructureRequest rt (.obj props)).url = getProp rt (.obj props) "url" := rfl
  simp only [handleHttpRequest, hu]
  cases truthy (getProp rt (.obj props) "url") with
  | false => simp
  | true =>
    simp only [Bool.not_true, Bool.false_eq_true, if_false, if_true]
    split
    · next r trace h => simp [h]
    · next error trace h =>
      split <;> simp [h]

/-- The HTTP calls of `handleHttpRequest` on an argument object. -/
theorem fetchCalls_handleHttpRequest (rt : Runtime) (defaultHeaders props : Obj) :
    fetchCalls (handleHttpRequest rt defaultHeaders (.obj props)).trace
      = if truthy (getProp rt (.obj props) "url") then
          match buildUrl rt (destructureRequest rt (.obj props)).url
              (destructureRequest rt (.obj props)).query_params,
            (destructureRequest rt (.obj props)).method with
          | .ok finalUrl, .str m =>
            [(finalUrl, fetchOptions (rt.toUpperCase m)
              (spread rt (spread rt [] (.obj defaultHeaders)) (destructureRequest rt (.obj props)).headers)
              (destructureRequest rt (.obj props)).body (destructureRequest rt (.obj props)).timeout
              (destructureRequest rt (.obj props)).follow_redirects)]
          | _, _ => []
        else [] := by
  rw [handleHttpRequest_obj_trace]
  split
  · exact fetchCalls_requestAttempt _ _ _
  · rfl

theorem upperAscii_GET (rt : Runtime) : rt.toUpperCase "GET" = "GET" := by
  rw [rt.toUpperCase_ascii "GET" (by decide)]
  decide

theorem upperAscii_POST (rt : Runtime) : rt.toUpperCase "POST" = "POST" := by
  rw [rt.toUpperCase_ascii "POST" (by decide)]
  decide

/-- Every HTTP call of `handleHttpRequest` is built by `fetchOptions` from the
destructured arguments, with the method string in upper case. -/
theorem fetchCalls_handleHttpRequest_mem (rt : Runtime) (defaultHeaders props : Obj) :
    ∀ url options,
      (url, options) ∈ fetchCalls (handleHttpRequest rt defaultHeaders (.obj props)).trace →
      ∃ m, (destructureRequest rt (.obj props)).method = .str m
        ∧ options = fetchOptions (rt.toUpperCase m)
          (spread rt (spread rt [] (.obj defaultHeaders)) (destructureRequest rt (.obj props)).headers)
          (destructureRequest rt (.obj props)).body (destructureRequest rt (.obj props)).timeout
          (destructureRequest rt (.obj props)).follow_redirects := by
  intro url options hmem
  rw [fetchCalls_handleHttpRequest] at hmem
  split at hmem
  · split at hmem
    · next finalUrl m hb hm =>
      simp only [List.mem_singleton, Prod.mk.injEq] at hmem
      exact ⟨m, hm, hmem.2⟩
    · simp at hmem
  · simp at hmem

/-- C10: every HTTP call that `http_request` issues has as method the
supplied method string in upper case (`GET` when `method` is missing); it
carries a body exactly when that upper-cased method is `POST`, `PUT` or `PATCH`
and the supplied body is truthy (for a string: not empty), the body sent is the
supplied value unchanged, and for every other method no body is sent. A call is
issued whenever `url` is truthy, `buildUrl` returns and `method` is a string. -/
theorem http_request_method_and_body (rt : Runtime) (defaultHeaders props : Obj) :
    let a := destructureRequest rt (.obj props)
    let run := handleHttpRequest rt defaultHeaders (.obj props)
    (∀ url options, (url, options) ∈ fetchCalls run.trace →
        ∃ m, a.method = .str m ∧ options.method = rt.toUpperCase m
          ∧ (options.body.isSome = true
              ↔ (rt.toUpperCase m ∈ ["POST", "PUT", "PATCH"] ∧ truthy a.body = true))
          ∧ (∀ b, options.body = some b → b = getProp rt (.obj props) "body")
          ∧ (rt.toUpperCase m ∉ ["POST", "PUT", "PATCH"] → options.body = none))
      ∧ (Obj.get props "method" = none →
          ∀ url options, (url, options) ∈ fetchCalls run.trace → options.method = "GET")
      ∧ (∀ finalUrl m, truthy a.url = true →
          buildUrl rt a.url a.query_params = .ok finalUrl → a.method = .str m →
          ∃ options, fetchCalls run.trace = [(finalUrl, options)]) := by
  intro a run
  have hcalls := fetchCalls_handleHttpRequest rt defaultHeaders props
  have hcall : ∀ url options, (url, options) ∈ fetchCalls run.trace →
      ∃ m, a.method = .str m ∧ options = fetchOptions (rt.toUpperCase m)
        (spread rt (spread rt [] (.obj defaultHeaders)) a.headers) a.body a.timeout
        a.follow_redirects :=
    fetchCalls_handleHttpRequest_mem rt defaultHeaders props
  refine ⟨?_, ?_, ?_⟩
  · intro url options hmem
    obtain ⟨m, hm, hopt⟩ := hcall url options hmem
    refine ⟨m, hm, ?_, ?_, ?_, ?_⟩
    · rw [hopt]; rfl
    · rw [hopt]
      simp only [fetchOptions]
      by_cases hc : (truthy a.body && ["POST", "PUT", "PATCH"].contains (rt.toUpperCase m)) = true
      · rw [if_pos hc]
        rw [Bool.and_eq_true, List.elem_iff] at hc
        exact ⟨fun _ => ⟨hc.2, hc.1⟩, fun _ => rfl⟩
      · rw [if_neg hc]
        rw [Bool.and_eq_true, List.elem_iff] at hc
        constructor
        · intro h
          cases h
        · intro h
          exact absurd ⟨h.2, h.1⟩ hc
    · intro b hb
      rw [hopt] at hb
      simp only [fetchOptions] at hb
      split at hb
      · exact (Option.some.inj hb).symm
      · cases hb
    · intro hnot
      rw [hopt]
      simp only [fetchOptions]
      have hc : ¬ (truthy a.body && ["POST", "PUT", "PATCH"].contains (rt.toUpperCase m)) = true := by
        rw [Bool.and_eq_true, List.elem_iff]
        exact fun h => hnot h.2
      rw [if_neg hc]
  · intro hnone url options hmem
    obtain ⟨m, hm, hopt⟩ := hcall url options hmem
    have hget : a.method = .str "GET" := by
      show orDefault (getProp rt (.obj props) "method") (.str "GET") = _
      simp [getProp_obj, hnone, orDefault]
    rw [hget] at hm
    cases hm
    rw [hopt]
    exact upperAscii_GET rt
  · intro finalUrl m hu hb hm
    refine ⟨fetchOptions (rt.toUpperCase m)
      (spread rt (spread rt [] (.obj defaultHeaders)) a.headers) a.body a.timeout
      a.follow_redirects, ?_⟩
    show fetchCalls (handleHttpRequest rt defaultHeaders (.obj props)).trace = _
    rw [hcalls]
    have hu2 : truthy (getProp rt (.obj props) "url") = true := hu
    rw [if_pos hu2]
    have hb2 : buildUrl rt (destructureRequest rt (.obj props)).url
        (destructureRequest rt (.obj props)).query_params = .ok finalUrl := hb
    have hm2 : (destructureRequest rt (.obj props)).method = .str m := hm
    rw [hb2, hm2]

/-- C10, on an empty body: `http_request` with `method` `POST` and the body
string `""` issues one call, with method `POST` and no body, although a body
string was supplied. -/
theorem http_request_empty_body_not_sent :
    (fetchCalls (handleHttpRequest sampleRuntime initialDefaultHeaders
        (.obj [("url", .str "http://a.test/"), ("method", .str "POST"),
          ("body", .str "")])).trace).map (fun c => (c.2.method, c.2.body.isSome))
        = [("POST", false)]
      ∧ getProp sampleRuntime (.obj [("url", .str "http://a.test/"), ("method", .str "POST"),
          ("body", .str "")]) "body" = .str "" := by
  exact ⟨by decide, rfl⟩

/-! ## The simplified GET -/

/-- `handleHttpRequest` sees an argument object only through its property reads. -/
theorem handleHttpRequest_congr (rt : Runtime) (defaultHeaders p q : Obj)
    (h : ∀ k, Obj.get p k = Obj.get q k) :
    handleHttpRequest rt defaultHeaders (.obj p) = handleHttpRequest rt defaultHeaders (.obj q) := by
  have hd : destructureRequest rt (.obj p) = destructureRequest rt (.obj q) := by
    simp [destructureRequest, getProp_obj, h]
  simp only [handleHttpRequest, hd]

/-- C9: on an argument object, `http_get` is `http_request` on the same object
with `method` set to `GET`: every HTTP call it issues has method `GET`, whatever
`method` the arguments carry, every other property is forwarded as given, and a
missing `url` throws `McpError(InvalidParams, "URL is required")` with no call
made. -/
theorem http_get_is_request_with_get (rt : Runtime) (defaultHeaders props : Obj)
    (hw : (Obj.keys props).Nodup) :
    handleHttpGet rt defaultHeaders (.obj props)
        = handleHttpRequest rt defaultHeaders (.obj (Obj.set props "method" (.str "GET")))
      ∧ (∀ url options,
          (url, options) ∈ fetchCalls (handleHttpGet rt defaultHeaders (.obj props)).trace →
          options.method = "GET")
      ∧ (∀ k, k ≠ "method" →
          getProp rt (.obj (Obj.set (spread rt [] (.obj props)) "method" (.str "GET"))) k
            = getProp rt (.obj props) k)
      ∧ getProp rt (.obj (Obj.set (spread rt [] (.obj props)) "method" (.str "GET"))) "method"
          = .str "GET"
      ∧ (Obj.get props "url" = none →
          handleHttpGet rt defaultHeaders (.obj props)
            = { result := .error (.mcp .InvalidParams "URL is required")
                defaultHeaders := defaultHeaders, trace := [] }) := by
  have hown : (Obj.keys (ownProps rt (.obj props))).Nodup := by simpa [ownProps] using hw
  have hget : ∀ k, Obj.get (Obj.set (spread rt [] (.obj props)) "method" (.str "GET")) k
      = Obj.get (Obj.set props "method" (.str "GET")) k := by
    intro k
    rw [Obj.get_set, Obj.get_set, get_spread_nil _ _ hown]
    rfl
  have heq : handleHttpGet rt defaultHeaders (.obj props)
      = handleHttpRequest rt defaultHeaders (.obj (Obj.set props "method" (.str "GET"))) :=
    handleHttpRequest_congr rt defaultHeaders _ _ hget
  refine ⟨heq, ?_, ?_, ?_, ?_⟩
  · intro url options hmem
    rw [heq] at hmem
    have hm := (fetchCalls_handleHttpRequest_mem rt defaultHeaders
      (Obj.set props "method" (.str "GET"))) url options hmem
    obtain ⟨m, hm1, hm2⟩ := hm
    have : (destructureRequest rt (.obj (Obj.set props "method" (.str "GET")))).method
        = .str "GET" := by
      simp [destructureRequest, getProp_obj, Obj.get_set, orDefault]
    rw [this] at hm1
    cases hm1
    rw [hm2]
    exact upperAscii_GET rt
  · intro k hk
    have hk2 : ¬ "method" = k := fun e => hk e.symm
    rw [getProp_obj, getProp_obj, Obj.get_set, if_neg hk2, get_spread_nil _ _ hown]
    rfl
  · rw [getProp_obj, Obj.get_set]
    rfl
  · intro hnone
    rw [heq]
    have : Obj.get (Obj.set props "method" (.str "GET")) "url" = none := by
      rw [Obj.get_set, if_neg (by decide)]
      exact hnone
    exact (handleHttpRequest_missing_url rt defaultHeaders _ this)

theorem http_get_is_request_with_get_witness :
    (Obj.keys [("url", JsVal.str "http://a.test/"), ("method", JsVal.str "DELETE")]).Nodup
      ∧ (fetchCalls (handleHttpGet sampleRuntime initialDefaultHeaders
          (.obj [("url", .str "http://a.test/"), ("method", .str "DELETE")])).trace).map
            (fun c => c.2.method)
        = (fetchCalls (handleHttpRequest sampleRuntime initialDefaultHeaders
          (.obj [("url", .str "http://a.test/"), ("method", .str "GET")])).trace).map
            (fun c => c.2.method) :=
  ⟨by decide, congrArg (fun r => (fetchCalls r.trace).map (fun c => c.2.method))
    (http_get_is_request_with_get sampleRuntime initialDefaultHeaders
      [("url", .str "http://a.test/"), ("method", .str "DELETE")] (by decide)).1⟩

/-! ## The simplified POST -/

/-- The destructured arguments of the object `handleHttpPost` forwards. -/
theorem destructureRequest_post {rt : Runtime} (url finalHeaders data : JsVal) (o : Obj)
    (hf : finalHeaders = .obj o) :
    destructureRequest rt (.obj [("url", url), ("method", .str "POST"),
        ("headers", finalHeaders), ("body", data)])
      = { url := url, method := .str "POST", headers := finalHeaders, body := data
          query_params := .undefined, timeout := .num 30000, follow_redirects := .bool true } := by
  subst hf
  simp [destructureRequest, getProp_obj, Obj.get, orDefault]

/-- C8: `http_post` issues an HTTP call exactly when `url` and `data` are truthy,
and then one call, to `url`, with method `POST`, body `data`, and as headers the
default headers overlaid by `Content-Type` = `content_type` (`application/json`
when missing) overlaid by the supplied headers: a key reads with the supplied
value, else with the derived `Content-Type`, else with the default value. -/
theorem http_post_headers (rt : Runtime) (defaultHeaders props : Obj)
    (hst : (Obj.keys defaultHeaders).Nodup)
    (hh : (Obj.keys (ownProps rt (orDefault (getProp rt (.obj props) "headers") (.obj [])))).Nodup) :
    let url := getProp rt (.obj props) "url"
    let data := getProp rt (.obj props) "data"
    let content_type := orDefault (getProp rt (.obj props) "content_type") (.str "application/json")
    let headers := orDefault (getProp rt (.obj props) "headers") (.obj [])
    let sent := spread rt (spread rt [] (.obj defaultHeaders))
      (.obj (spread rt [("Content-Type", content_type)] headers))
    fetchCalls (handleHttpPost rt defaultHeaders (.obj props)).trace
        = (if truthy url && truthy data then
            [(url, { method := "POST", headers := sent, signal := .num 30000
                     redirect := "follow", body := some data })]
          else [])
      ∧ (∀ k, Obj.get sent k
          = (Obj.get (ownProps rt headers) k).or
              ((Obj.get [("Content-Type", content_type)] k).or (Obj.get defaultHeaders k)))
      ∧ (∀ k, Obj.get sent k
          = Obj.get (spread rt (spread rt (spread rt [] (.obj defaultHeaders))
              (.obj [("Content-Type", content_type)])) headers) k) := by
  intro url data content_type headers sent
  have hct : (Obj.keys [("Content-Type", content_type)]).Nodup := by simp [Obj.keys]
  have hinner : (Obj.keys (spread rt [("Content-Type", content_type)] headers)).Nodup :=
    nodup_keys_spread _ _ hct
  have hsent : ∀ k, Obj.get sent k
      = (Obj.get (ownProps rt headers) k).or
          ((Obj.get [("Content-Type", content_type)] k).or (Obj.get defaultHeaders k)) := by
    intro k
    show Obj.get (spread rt (spread rt [] (.obj defaultHeaders))
      (.obj (spread rt [("Content-Type", content_type)] headers))) k = _
    rw [get_spread _ _ _ (by simpa [ownProps] using hinner),
      get_spread_nil _ _ (by simpa [ownProps] using hst)]
    have e1 : ownProps rt (.obj (spread rt [("Content-Type", content_type)] headers))
        = spread rt [("Content-Type", content_type)] headers := rfl
    have e2 : ownProps rt (.obj defaultHeaders) = defaultHeaders := rfl
    rw [e1, e2, get_spread _ _ _ hh]
    cases Obj.get (ownProps rt headers) k <;> simp
  refine ⟨?_, hsent, ?_⟩
  · cases hd : truthy data with
    | false =>
      have : (handleHttpPost rt defaultHeaders (.obj props)).trace = [] := by
        have hd2 : truthy (getProp rt (.obj props) "data") = false := hd
        simp [handleHttpPost, hd2]
      rw [this]
      simp [fetchCalls]
    | true =>
      have hd2 : truthy (getProp rt (.obj props) "data") = true := hd
      have hpost : handleHttpPost rt defaultHeaders (.obj props)
          = handleHttpRequest rt defaultHeaders (.obj [("url", url), ("method", .str "POST"),
              ("headers", .obj (spread rt [("Content-Type", content_type)] headers)),
              ("body", data)]) := by
        simp [handleHttpPost, hd2]
      rw [hpost, fetchCalls_handleHttpRequest, destructureRequest_post _ _ _ _ rfl]
      have hurl : getProp rt (.obj [("url", url), ("method", .str "POST"),
          ("headers", .obj (spread rt [("Content-Type", content_type)] headers)),
          ("body", data)]) "url" = url := by
        simp [getProp_obj, Obj.get]
      rw [hurl]
      cases hu : truthy url with
      | false => simp
      | true =>
        have hb : buildUrl rt url .undefined = .ok url := by simp [buildUrl, truthy]
        simp only [hb, upperAscii_POST, fetchOptions, hd]
        simp [truthy]
  · intro k
    rw [hsent, get_spread _ _ _ hh,
      get_spread _ _ _ (by simpa [ownProps] using hct),
      get_spread_nil _ _ (by simpa [ownProps] using hst)]
    rfl

theorem http_post_headers_witness :
    (Obj.keys initialDefaultHeaders).Nodup
      ∧ (fetchCalls (handleHttpPost sampleRuntime initialDefaultHeaders
          (.obj [("url", .str "http://a.test/"), ("data", .str "x=1"),
            ("headers", .obj [("Content-Type", .str "text/plain")])])).trace).map
              (fun c => (c.2.method, c.2.headers.map Prod.fst))
        = [("POST", ["User-Agent", "Content-Type"])] :=
  ⟨by decide,
    (congrArg (fun cs => cs.map (fun c => (c.2.method, c.2.headers.map Prod.fst)))
      (http_post_headers sampleRuntime initialDefaultHeaders
        [("url", .str "http://a.test/"), ("data", .str "x=1"),
          ("headers", .obj [("Content-Type", .str "text/plain")])]
        (by decide) (by decide)).1).trans (by decide)⟩

end HttpClientServer
